import Mathlib

/-!
Verification of the lizcode agent core: a shallow embedding of the task
list state machine, the mode/permission matrix, the tool registry context
filter, conversation-state serialization, the agent chat loop, session
checkpoint rewind, and plan-to-task projection, together with theorems
settling the specification claims about them.

Conventions of the embedding:
* Python objects become Lean structures; methods become pure functions
  threading the object explicitly and returning the updated value.
* A Python method that raises becomes a function returning the unchanged
  state together with an Except value carrying the error message.
* datetime.now() timestamps are modelled by an explicit natural-number
  clock where an embedded claim reads them, and omitted where no embedded
  operation's behaviour depends on them.
* Disk persistence (TaskList._persist) is modelled by a write counter so
  that claims about when the sidecar file is rewritten can be stated.
-/

namespace Lizcode

/-- Single-quote character, used to build error messages that quote names. -/
def sq : String := (Char.ofNat 39).toString

/-! ### Task list (core/tasks.py) -/

/-- States of a task, from the TaskState enum in core/tasks.py. -/
inductive TaskState where
  | pending
  | in_progress
  | completed
deriving DecidableEq

/-- A task, from the Task dataclass in core/tasks.py.  The created_at,
started_at and completed_at timestamps, parent_id and metadata fields are
omitted: no operation embedded here reads them, and no claim mentions
them.  Python generates ids with uuid4; the embedding allocates fresh ids
from the counter TaskList.next_id, which preserves the uuid property the
code relies on (a newly added task's id differs from every existing id). -/
structure Task where
  id : Nat
  content : String
  active_form : String
  state : TaskState
deriving DecidableEq

/-- Task.start sets state to IN_PROGRESS (started_at omitted, see Task). -/
def Task.start (t : Task) : Task := { t with state := TaskState.in_progress }

/-- Task.complete sets state to COMPLETED (completed_at omitted). -/
def Task.complete (t : Task) : Task := { t with state := TaskState.completed }

/-- TaskList from core/tasks.py.  The field writes counts the calls to
_persist (each one rewrites the sidecar file when a persist path is set);
next_id models the uuid generator (see Task). -/
structure TaskList where
  tasks : List Task
  next_id : Nat
  writes : Nat
deriving DecidableEq

/-- An empty task list. -/
def TaskList.empty : TaskList := ⟨[], 0, 0⟩

/-- TaskList.get_task: first task whose id matches, linear scan. -/
def TaskList.get_task (tl : TaskList) (task_id : Nat) : Option Task :=
  tl.tasks.find? (fun t => decide (t.id = task_id))

/-- TaskList.get_in_progress: first task in state IN_PROGRESS. -/
def TaskList.get_in_progress (tl : TaskList) : Option Task :=
  tl.tasks.find? (fun t => decide (t.state = TaskState.in_progress))

/-- TaskList.add_task: appends a fresh pending task and persists. -/
def TaskList.add_task (tl : TaskList) (content active_form : String) :
    TaskList × Task :=
  let task : Task := ⟨tl.next_id, content, active_form, TaskState.pending⟩
  ({ tasks := tl.tasks ++ [task], next_id := tl.next_id + 1,
     writes := tl.writes + 1 }, task)

/-- TaskList.add_tasks: adds the given (content, active_form) pairs in
order via add_task. -/
def TaskList.add_tasks (tl : TaskList) (items : List (String × String)) :
    TaskList × List Task :=
  items.foldl
    (fun acc it =>
      let r := acc.1.add_task it.1 it.2
      (r.1, acc.2 ++ [r.2]))
    (tl, [])

/-- In-place mutation of the first task with the given id (Python mutates
the object returned by get_task, which is the first match in the list). -/
def updateFirstTask (l : List Task) (task_id : Nat) (f : Task → Task) :
    List Task :=
  match l with
  | [] => []
  | t :: ts =>
      if t.id = task_id then f t :: ts
      else t :: updateFirstTask ts task_id f

/-- Removal of the first task with the given id (TaskList.remove_task pops
the first index whose id matches). -/
def removeFirstTask (l : List Task) (task_id : Nat) : List Task :=
  match l with
  | [] => []
  | t :: ts =>
      if t.id = task_id then ts
      else t :: removeFirstTask ts task_id

/-- The ValueError message raised by TaskList.start_task when another task
is already in progress. -/
def alreadyInProgressMsg (task_id : Nat) (current_content : String) : String :=
  "Cannot start task " ++ toString task_id ++ ": task " ++ sq ++
    current_content ++ sq ++
    " is already in progress. Complete it first or mark it as pending."

/-- Body of TaskList.start_task after the in-progress check: look the task
up, start it and persist when found, return None silently otherwise. -/
def TaskList.start_task_body (tl : TaskList) (task_id : Nat) :
    TaskList × Except String (Option Task) :=
  match tl.get_task task_id with
  | some t =>
      ({ tl with tasks := updateFirstTask tl.tasks task_id Task.start,
                 writes := tl.writes + 1 },
       Except.ok (some t.start))
  | none => (tl, Except.ok none)

/-- TaskList.start_task: raises ValueError when a different task is
already in progress (before any mutation), otherwise marks the task (if
present) as in progress and persists. -/
def TaskList.start_task (tl : TaskList) (task_id : Nat) :
    TaskList × Except String (Option Task) :=
  match tl.get_in_progress with
  | some current =>
      if current.id = task_id then tl.start_task_body task_id
      else (tl, Except.error (alreadyInProgressMsg task_id current.content))
  | none => tl.start_task_body task_id

/-- TaskList.complete_task: marks the task (if present) as completed and
persists; returns None silently when the id is absent. -/
def TaskList.complete_task (tl : TaskList) (task_id : Nat) :
    TaskList × Option Task :=
  match tl.get_task task_id with
  | some t =>
      ({ tl with tasks := updateFirstTask tl.tasks task_id Task.complete,
                 writes := tl.writes + 1 },
       some t.complete)
  | none => (tl, none)

/-- TaskList.remove_task: removes the first task with the id, persisting
only when a removal happened. -/
def TaskList.remove_task (tl : TaskList) (task_id : Nat) : TaskList × Bool :=
  if (tl.get_task task_id).isSome then
    ({ tl with tasks := removeFirstTask tl.tasks task_id,
               writes := tl.writes + 1 }, true)
  else (tl, false)

/-- TaskList.clear_completed: drops completed tasks, persisting only when
at least one was removed. -/
def TaskList.clear_completed (tl : TaskList) : TaskList × Nat :=
  let remaining := tl.tasks.filter (fun t => decide (t.state ≠ TaskState.completed))
  let removed := tl.tasks.length - remaining.length
  if removed > 0 then
    ({ tl with tasks := remaining, writes := tl.writes + 1 }, removed)
  else ({ tl with tasks := remaining }, removed)

/-- TaskList.clear_all: empties the list and persists. -/
def TaskList.clear_all (tl : TaskList) : TaskList :=
  { tl with tasks := [], writes := tl.writes + 1 }

/-- One TaskList operation, for stating claims over operation sequences. -/
inductive TaskOp where
  | add (content active_form : String)
  | add_many (items : List (String × String))
  | start (task_id : Nat)
  | complete (task_id : Nat)
  | remove (task_id : Nat)
  | clear_completed
  | clear_all

/-- Apply one operation to a task list (a raised ValueError propagates to
the caller and leaves the list as start_task left it, i.e. unchanged). -/
def applyTaskOp (tl : TaskList) (op : TaskOp) : TaskList :=
  match op with
  | TaskOp.add c a => (tl.add_task c a).1
  | TaskOp.add_many items => (tl.add_tasks items).1
  | TaskOp.start i => (tl.start_task i).1
  | TaskOp.complete i => (tl.complete_task i).1
  | TaskOp.remove i => (tl.remove_task i).1
  | TaskOp.clear_completed => tl.clear_completed.1
  | TaskOp.clear_all => tl.clear_all

/-- Run a sequence of operations from the empty task list. -/
def runTaskOps (ops : List TaskOp) : TaskList :=
  ops.foldl applyTaskOp TaskList.empty

/-- Number of tasks currently in state IN_PROGRESS. -/
def inProgressCount (l : List Task) : Nat :=
  l.countP (fun t => decide (t.state = TaskState.in_progress))

/-- Internal well-formedness of a task list: at most one task in progress,
ids pairwise distinct, and every id below the allocation counter. -/
def TaskInv (tl : TaskList) : Prop :=
  inProgressCount tl.tasks ≤ 1 ∧ (tl.tasks.map Task.id).Nodup ∧
    ∀ t ∈ tl.tasks, t.id < tl.next_id

/-! ### Modes, permissions and the tool registry (core/state.py, tools/base.py) -/

/-- Operating modes, from the Mode enum in core/state.py. -/
inductive Mode where
  | plan
  | act
  | bash
deriving DecidableEq

/-- Mode.value, the string of the enum member. -/
def Mode.value : Mode → String
  | Mode.plan => "plan"
  | Mode.act => "act"
  | Mode.bash => "bash"

/-- Mode(s) construction from a value string; None models the ValueError
the Python enum constructor raises on an unknown value. -/
def Mode.fromValue? (s : String) : Option Mode :=
  if s = "plan" then some Mode.plan
  else if s = "act" then some Mode.act
  else if s = "bash" then some Mode.bash
  else none

/-- Tool permission levels, from the Permission enum in tools/base.py. -/
inductive Permission where
  | read
  | write
  | execute
  | plan
deriving DecidableEq

/-- Tool.requires_approval from tools/base.py: in plan mode everything but
READ and PLAN needs approval, in act mode WRITE and EXECUTE do, and in
bash mode the method returns True unconditionally. -/
def requires_approval (p : Permission) (mode : Mode) : Bool :=
  match mode with
  | Mode.plan => !(decide (p = Permission.read) || decide (p = Permission.plan))
  | Mode.act => decide (p = Permission.write) || decide (p = Permission.execute)
  | Mode.bash => true

/-- Tool.is_allowed_in_mode from tools/base.py: READ and PLAN tools in
plan mode, READ, WRITE and EXECUTE tools in act mode, nothing in bash
mode. -/
def is_allowed_in_mode (p : Permission) (mode : Mode) : Bool :=
  match mode with
  | Mode.plan => decide (p = Permission.read) || decide (p = Permission.plan)
  | Mode.act =>
      decide (p = Permission.read) || decide (p = Permission.write) ||
        decide (p = Permission.execute)
  | Mode.bash => false

/-- Result of a tool's execute, from the ToolResult dataclass in
tools/base.py. -/
structure PyToolResult where
  success : Bool
  output : String
  error : Option String
deriving DecidableEq

/-- ToolResult.__str__ from tools/base.py: the output on success,
otherwise "Error: " followed by the error if it is truthy, else the
output (Python's `self.error or self.output`). -/
def PyToolResult.str (r : PyToolResult) : String :=
  if r.success then r.output
  else
    "Error: " ++
      (match r.error with
       | some e => if e = "" then r.output else e
       | none => r.output)

/-- Tool-call arguments, modelling the Python argument dict as an
association list of string keys and values. -/
abbrev Args := List (String × String)

/-- A registered tool: its declared name and permission class, and its
execute contract.  Execute bodies run against the filesystem, shell or
network and are external collaborators; they are modelled as an opaque
function from arguments to either a ToolResult or a raised exception
message (Except.error). -/
structure ToolSpec where
  name : String
  permission : Permission
  exec : Args → Except String PyToolResult

/-- ToolRegistry, a name-keyed mapping in registration order; get is a
lookup by name (dict keys are unique, so first match suffices). -/
def registryGet (reg : List ToolSpec) (name : String) : Option ToolSpec :=
  reg.find? (fun t => decide (t.name = name))

/-- ToolRegistry.get_for_context from tools/base.py: mode filtering via
is_allowed_in_mode, then in plan mode the create_plan tool only when no
plan exists, and update_plan / finalize_plan / todo_write only once a
plan exists. -/
def get_for_context (reg : List ToolSpec) (mode : Mode) (has_plan : Bool) :
    List ToolSpec :=
  reg.filter (fun tool =>
    if !(is_allowed_in_mode tool.permission mode) then false
    else if decide (mode = Mode.plan) then
      if tool.name = "create_plan" then !has_plan
      else if tool.name = "update_plan" ∨ tool.name = "finalize_plan" ∨
          tool.name = "todo_write" then has_plan
      else true
    else true)

/-- Placeholder execute used for the default tools: the actual execute
bodies are external (filesystem/shell/network) and no claim depends on
their behaviour. -/
def defaultExec : Args → Except String PyToolResult :=
  fun _ => Except.ok ⟨true, "", none⟩

/-- The registry built by create_tool_registry in tools/__init__.py: the
names and permission classes of get_default_tools, in registration
order. -/
def default_tools : List ToolSpec :=
  [⟨"bash", Permission.execute, defaultExec⟩,
   ⟨"read_file", Permission.read, defaultExec⟩,
   ⟨"write_file", Permission.write, defaultExec⟩,
   ⟨"edit_file", Permission.write, defaultExec⟩,
   ⟨"glob", Permission.read, defaultExec⟩,
   ⟨"grep", Permission.read, defaultExec⟩,
   ⟨"list_files", Permission.read, defaultExec⟩,
   ⟨"todo_write", Permission.read, defaultExec⟩,
   ⟨"task", Permission.read, defaultExec⟩,
   ⟨"ask_user", Permission.read, defaultExec⟩,
   ⟨"attempt_completion", Permission.write, defaultExec⟩,
   ⟨"create_plan", Permission.plan, defaultExec⟩,
   ⟨"finalize_plan", Permission.plan, defaultExec⟩,
   ⟨"update_plan", Permission.plan, defaultExec⟩,
   ⟨"webfetch", Permission.read, defaultExec⟩,
   ⟨"browser", Permission.write, defaultExec⟩,
   ⟨"skill", Permission.read, defaultExec⟩,
   ⟨"notebook_edit", Permission.write, defaultExec⟩]

/-! ### Conversation state and its serialization (core/state.py) -/

/-- Message roles, from the Role enum in core/state.py. -/
inductive Role where
  | user
  | assistant
  | system
  | tool
deriving DecidableEq

/-- Role.value, the string of the enum member. -/
def Role.value : Role → String
  | Role.user => "user"
  | Role.assistant => "assistant"
  | Role.system => "system"
  | Role.tool => "tool"

/-- Role(s) construction from a value string; None models the ValueError
the Python enum constructor raises on an unknown value. -/
def Role.fromValue? (s : String) : Option Role :=
  if s = "user" then some Role.user
  else if s = "assistant" then some Role.assistant
  else if s = "system" then some Role.system
  else if s = "tool" then some Role.tool
  else none

/-- A tool call requested by the model, from the ToolCall dataclass in
core/state.py. -/
structure ToolCall where
  id : String
  name : String
  arguments : Args
deriving DecidableEq

/-- The result of a tool execution as recorded in conversation state,
from the ToolResult dataclass in core/state.py (imported by the agent as
StateToolResult, the name used here to keep it apart from the tools/base
ToolResult). -/
structure StateToolResult where
  tool_call_id : String
  name : String
  result : String
  success : Bool
deriving DecidableEq

/-- A message in the conversation, from the Message dataclass in
core/state.py.  The datetime timestamp is modelled as a natural number
(datetime values serialize through isoformat/fromisoformat, an inverse
pair, so they are represented by their parsed value). -/
structure Message where
  role : Role
  content : String
  timestamp : Nat
  tool_calls : Option (List ToolCall)
  tool_result : Option StateToolResult
deriving DecidableEq

/-- ConversationState from core/state.py. -/
structure ConversationState where
  messages : List Message
  mode : Mode
  working_directory : String
  model : String
  provider : String
deriving DecidableEq

/-- ConversationState.add_message: appends a message built from the given
parts; ts is the datetime.now() default of the Message timestamp field,
made explicit. -/
def ConversationState.add_message (s : ConversationState) (role : Role)
    (content : String) (ts : Nat) (tool_calls : Option (List ToolCall))
    (tool_result : Option StateToolResult) : ConversationState :=
  { s with messages := s.messages ++ [⟨role, content, ts, tool_calls, tool_result⟩] }

/-- ConversationState.add_user_message. -/
def ConversationState.add_user_message (s : ConversationState)
    (content : String) (ts : Nat) : ConversationState :=
  s.add_message Role.user content ts none none

/-- ConversationState.add_assistant_message. -/
def ConversationState.add_assistant_message (s : ConversationState)
    (content : String) (tool_calls : Option (List ToolCall)) (ts : Nat) :
    ConversationState :=
  s.add_message Role.assistant content ts tool_calls none

/-- ConversationState.add_tool_result: appends a tool-role message whose
content is the result text. -/
def ConversationState.add_tool_result (s : ConversationState)
    (tr : StateToolResult) (ts : Nat) : ConversationState :=
  s.add_message Role.tool tr.result ts none (some tr)

/-- Serialized form of a ToolCall inside a checkpoint dict. -/
structure ToolCallDict where
  id : String
  name : String
  arguments : Args
deriving DecidableEq

/-- Serialized form of a ToolResult inside a checkpoint dict; success is
optional because from_dict reads it with a default of True. -/
structure ToolResultDict where
  tool_call_id : String
  name : String
  result : String
  success : Option Bool
deriving DecidableEq

/-- Serialized form of a Message inside a checkpoint dict.  The
tool_calls entry distinguishes null from a list, mirroring the JSON;
timestamp is optional because from_dict falls back to datetime.now()
when the key is missing or null. -/
structure MessageDict where
  role : String
  content : String
  timestamp : Option Nat
  tool_calls : Option (List ToolCallDict)
  tool_result : Option ToolResultDict
deriving DecidableEq

/-- Serialized form of a ConversationState, the dict produced by
ConversationState.to_dict. -/
structure StateDict where
  mode : String
  working_directory : String
  model : String
  provider : String
  messages : List MessageDict
deriving DecidableEq

/-- The per-message part of ConversationState.to_dict: role.value, the
content, the timestamp (always present), the tool-call list or None when
`msg.tool_calls` is falsy (None or empty), and the tool-result dict with
its success flag. -/
def Message.to_dict (m : Message) : MessageDict :=
  ⟨m.role.value, m.content, some m.timestamp,
   (match m.tool_calls with
    | some l =>
        if l.isEmpty then none
        else some (l.map fun tc => ⟨tc.id, tc.name, tc.arguments⟩)
    | none => none),
   m.tool_result.map fun tr => ⟨tr.tool_call_id, tr.name, tr.result, some tr.success⟩⟩

/-- ConversationState.to_dict from core/state.py. -/
def ConversationState.to_dict (s : ConversationState) : StateDict :=
  ⟨s.mode.value, s.working_directory, s.model, s.provider,
   s.messages.map Message.to_dict⟩

/-- The per-message part of ConversationState.from_dict: parse the role
(a bad value raises, modelled as None), rebuild the tool calls when the
entry is truthy (a present non-empty list), the tool result with success
defaulting to True, and the timestamp with a datetime.now() fallback
(modelled as 0; never taken on a to_dict output, which always stores a
timestamp). -/
def Message.from_dict (d : MessageDict) : Option Message :=
  match Role.fromValue? d.role with
  | none => none
  | some role =>
      let tool_calls : Option (List ToolCall) :=
        match d.tool_calls with
        | some l =>
            if l.isEmpty then none
            else some (l.map fun tc => ⟨tc.id, tc.name, tc.arguments⟩)
        | none => none
      let tool_result : Option StateToolResult :=
        d.tool_result.map fun tr =>
          ⟨tr.tool_call_id, tr.name, tr.result, tr.success.getD true⟩
      let ts : Nat :=
        match d.timestamp with
        | some ts => ts
        | none => 0
      some ⟨role, d.content, ts, tool_calls, tool_result⟩

/-- The message-list loop of ConversationState.from_dict: messages are
rebuilt in order, and a parse failure part-way through raises (None). -/
def messagesFromDicts : List MessageDict → Option (List Message)
  | [] => some []
  | d :: ds =>
      match Message.from_dict d with
      | none => none
      | some m =>
          match messagesFromDicts ds with
          | none => none
          | some ms => some (m :: ms)

/-- ConversationState.from_dict from core/state.py: an instance method
mutating self, embedded as a function from the prior state and the dict
to the updated state.  Every key the method guards on is present in a
to_dict output, so each field is replaced. -/
def ConversationState.from_dict (_self : ConversationState) (d : StateDict) :
    Option ConversationState :=
  match Mode.fromValue? d.mode with
  | none => none
  | some mode =>
      match messagesFromDicts d.messages with
      | none => none
      | some msgs =>
          some { messages := msgs, mode := mode,
                 working_directory := d.working_directory,
                 model := d.model, provider := d.provider }

/-! ### The agent chat loop (core/agent.py) -/

/-- Chunks yielded by Agent.chat (the dicts of its docstring), plus the
iteration_limit chunk emitted at the act-mode warning threshold. -/
inductive Event where
  | contentEv (text : String)
  | toolCallEv (tool : String) (args : Args)
  | toolResultEv (tool : String) (result : String) (success : Bool)
  | errorEv (message : String)
  | iterationLimitEv (count : Nat)
  | taskUpdateEv (tasks : String)
deriving DecidableEq

/-- One response of the chat provider: text content and the tool calls it
requests (the {content, tool_calls} dict of Provider.chat). -/
structure ProviderResponse where
  content : String
  tool_calls : List ToolCall
deriving DecidableEq

/-- The agent's fixed collaborators during one turn: its tool registry,
the current mode (user-controlled, never switched by a tool), and the
approval callback (the Bool-returning contract of Agent.__init__). -/
structure AgentEnv where
  registry : List ToolSpec
  mode : Mode
  approval : String → Args → Bool

/-- The message of the not-allowed-in-mode failure in Agent._execute_tool. -/
def notAllowedMsg (name : String) (mode : Mode) : String :=
  "Tool " ++ sq ++ name ++ sq ++ " is not allowed in " ++ mode.value ++ " mode"

/-- Agent._execute_tool: resolve the tool by name (unknown names fail),
check the mode permission (disallowed modes fail), run the approval
callback when the tool requires approval (a false return fails without
executing), then execute, converting a raised exception into a failed
result.  The Bool records whether the tool's execute ran.  Every branch
returns a StateToolResult: no branch propagates an exception to the
caller. -/
def executeTool (env : AgentEnv) (tc : ToolCall) : StateToolResult × Bool :=
  match registryGet env.registry tc.name with
  | none => (⟨tc.id, tc.name, "Unknown tool: " ++ tc.name, false⟩, false)
  | some tool =>
      if is_allowed_in_mode tool.permission env.mode = false then
        (⟨tc.id, tc.name, notAllowedMsg tc.name env.mode, false⟩, false)
      else if requires_approval tool.permission env.mode = true ∧
          env.approval tc.name tc.arguments = false then
        (⟨tc.id, tc.name, "Tool execution was declined by user", false⟩, false)
      else
        match tool.exec tc.arguments with
        | Except.ok r => (⟨tc.id, tc.name, r.str, r.success⟩, true)
        | Except.error e =>
            (⟨tc.id, tc.name, "Tool execution error: " ++ e, false⟩, true)

/-- Accumulated output of executing one iteration's tool calls. -/
structure ExecOut where
  events : List Event
  state : ConversationState
  execs : List String
  clock : Nat
deriving DecidableEq

/-- The per-call loop inside Agent.chat: for each call in the order the
model emitted, yield the tool_call chunk, execute, yield the tool_result
chunk, append the result to conversation state, and yield a task_update
chunk after a successful todo_write.  execs collects the names of tools
whose execute actually ran. -/
def execCalls (env : AgentEnv) : List ToolCall → ConversationState → Nat → ExecOut
  | [], st, clock => ⟨[], st, [], clock⟩
  | tc :: tcs, st, clock =>
      let er := executeTool env tc
      let result := er.1
      let st' := st.add_tool_result result clock
      let taskEvs : List Event :=
        if tc.name = "todo_write" ∧ result.success = true then
          [Event.taskUpdateEv result.result]
        else []
      let rest := execCalls env tcs st' (clock + 1)
      ⟨Event.toolCallEv tc.name tc.arguments ::
         Event.toolResultEv tc.name result.result result.success ::
         (taskEvs ++ rest.events),
       rest.state,
       (if er.2 then [tc.name] else []) ++ rest.execs,
       rest.clock⟩

/-- Result of one Agent.chat turn: the yielded chunks, the final
conversation state, the number of provider responses consumed (model
calls that returned), and the names of tools whose execute ran. -/
structure ChatOut where
  events : List Event
  state : ConversationState
  calls : Nat
  execs : List String
deriving DecidableEq

/-- The while-loop condition of Agent.chat: no cap, or below it. -/
def loopCond (maxIter : Option Nat) (iterations : Nat) : Bool :=
  match maxIter with
  | none => true
  | some m => decide (iterations < m)

/-- The turn loop of Agent.chat.  The provider is scripted: consuming the
next response models one model call; an exhausted script models a raised
provider error (the API-error chunk, ending the turn).  Each iteration:
check the cap, bump the counter, emit the single act-mode
iteration_limit chunk when the counter reaches 20, query the provider,
yield content, and either finish (no tool calls; content appended as an
assistant message) or record the assistant message with its tool calls,
execute them in order, and continue the loop. -/
def chatGo (env : AgentEnv) : List ProviderResponse → Nat → Option Nat →
    ConversationState → Nat → ChatOut
  | [], iterations, maxIter, st, _clock =>
      if loopCond maxIter iterations then
        let its := iterations + 1
        let warn : List Event :=
          if env.mode = Mode.act ∧ its = 20 then [Event.iterationLimitEv its]
          else []
        ⟨warn ++ [Event.errorEv "API error"], st, 0, []⟩
      else ⟨[], st, 0, []⟩
  | resp :: rest, iterations, maxIter, st, clock =>
      if loopCond maxIter iterations then
        let its := iterations + 1
        let warn : List Event :=
          if env.mode = Mode.act ∧ its = 20 then [Event.iterationLimitEv its]
          else []
        let contentEvs : List Event :=
          if resp.content = "" then [] else [Event.contentEv resp.content]
        if resp.tool_calls.isEmpty then
          let st' :=
            if resp.content = "" then st
            else st.add_assistant_message resp.content none clock
          ⟨warn ++ contentEvs, st', 1, []⟩
        else
          let st1 := st.add_assistant_message resp.content (some resp.tool_calls) clock
          let r := execCalls env resp.tool_calls st1 (clock + 1)
          let out := chatGo env rest its maxIter r.state r.clock
          ⟨warn ++ contentEvs ++ r.events ++ out.events, out.state,
           1 + out.calls, r.execs ++ out.execs⟩
      else ⟨[], st, 0, []⟩

/-- Agent.chat: append the user message, then run the loop with the
per-mode cap (None in plan mode, 25 otherwise) starting from iteration
0. -/
def chat (env : AgentEnv) (st0 : ConversationState) (userMsg : String)
    (script : List ProviderResponse) : ChatOut :=
  let st := st0.add_user_message userMsg 0
  chatGo env script 0
    (match env.mode with
     | Mode.plan => none
     | _ => some 25)
    st 1

/-- Count of iteration_limit chunks among a turn's events. -/
def countIterLimit (events : List Event) : Nat :=
  events.countP (fun e =>
    match e with
    | Event.iterationLimitEv _ => true
    | _ => false)

/-! ### Session checkpoints and rewind (core/session.py) -/

/-- A checkpoint record, from the Checkpoint dataclass in
core/session.py (its timestamp field is a string there too). -/
structure Checkpoint where
  number : Nat
  message : String
  timestamp : String
deriving DecidableEq

/-- A session, from the Session dataclass in core/session.py, restricted
to what rewind_to touches: the in-memory checkpoint list and the
checkpoints/ directory of snapshot files, modelled as a map from
checkpoint number to stored snapshot text.  The id, name, project_path
and created_at/updated_at metadata fields and session.json writes are
omitted (no embedded claim reads them), and the session directory is
taken as set (a session without one cannot hold the snapshots the claims
presuppose). -/
structure Session where
  checkpoints : List Checkpoint
  files : Nat → Option String

/-- Deletion of one snapshot file (checkpoint_file.unlink()). -/
def eraseFile (files : Nat → Option String) (i : Nat) : Nat → Option String :=
  fun j => if j = i then none else files j

/-- Session.load_checkpoint: read the number-keyed snapshot file if it
exists. -/
def Session.load_checkpoint (s : Session) (number : Nat) : Option String :=
  s.files number

/-- Session.rewind_to from core/session.py: reject numbers outside
1..len(checkpoints), load the target snapshot (failing without mutation
when it cannot be read), delete the snapshot files of checkpoints
number+1..len, truncate the in-memory list, and report success naming
the target checkpoint.  Python's int argument can also be negative;
every such value falls into the same `number < 1` branch, so Nat input
loses nothing.  The indexing `checkpoints[number - 1]` is in range on
the success branch (guarded by the bounds check), so getD's default is
never taken. -/
def Session.rewind_to (s : Session) (number : Nat) :
    Session × Bool × String × Option String :=
  if number < 1 ∨ number > s.checkpoints.length then
    (s, false,
     "Invalid checkpoint " ++ toString number ++ ". Range: 1-" ++
       toString s.checkpoints.length,
     none)
  else
    match s.load_checkpoint number with
    | none => (s, false, "Could not load checkpoint " ++ toString number, none)
    | some state =>
        let files' :=
          (List.range' (number + 1) (s.checkpoints.length - number)).foldl
            eraseFile s.files
        let checkpoints' := s.checkpoints.take number
        let target := checkpoints'.getD (number - 1) ⟨0, "", ""⟩
        ({ checkpoints := checkpoints', files := files' },
         true,
         "Rewound to checkpoint " ++ toString number ++ ": " ++ target.message,
         some state)

/-! ### Plans and plan-to-task projection (core/plan.py) -/

/-- A plan step, from the PlanStep dataclass in core/plan.py. -/
structure PlanStep where
  description : String
  files_involved : List String
  estimated_complexity : String
  notes : String
deriving DecidableEq

/-- A plan, from the Plan dataclass in core/plan.py, restricted to the
fields Plan.to_tasks reads or the projection claim mentions; the phase,
the accumulating context/question/approach/risk fields, the timestamps
and the persistence path are omitted (to_tasks reads none of them). -/
structure Plan where
  title : String
  objective : String
  steps : List PlanStep
  verification_steps : List String
deriving DecidableEq

/-- One entry of the list Plan.to_tasks returns: the task dict with its
content, active_form and metadata keys (metadata carries the step's
files and complexity). -/
structure PlanTaskDict where
  content : String
  active_form : String
  metadata_files : List String
  metadata_complexity : String
deriving DecidableEq

/-- Replacement str.replace(old, new, 1): replace the leftmost occurrence
of old (found by a prefix test at each position, scanning left to
right), leaving the string unchanged when old does not occur. -/
def replFirst (old new : List Char) : List Char → List Char
  | [] => if old.isPrefixOf [] then new else []
  | c :: cs =>
      if old.isPrefixOf (c :: cs) then new ++ (c :: cs).drop old.length
      else c :: replFirst old new cs

/-- str.replace(old, new, 1) on strings. -/
def pyReplaceFirst (s old new : String) : String :=
  ⟨replFirst old.data new.data s.data⟩

/-- str.startswith on strings. -/
def pyStartsWith (s pre : String) : Bool :=
  pre.data.isPrefixOf s.data

/-- Drop the first n characters of a string (used to state the amended
prefix-substitution table). -/
def stringDrop (s : String) (n : Nat) : String :=
  ⟨s.data.drop n⟩

/-- The active-form heuristic inlined in Plan.to_tasks: the if/elif
chain over startswith with replace(…, …, 1), falling back to
"Working on: <description>".  Note the Update branch, present in the
code. -/
def activeFormOf (content : String) : String :=
  if pyStartsWith content "Add" then pyReplaceFirst content "Add" "Adding"
  else if pyStartsWith content "Create" then pyReplaceFirst content "Create" "Creating"
  else if pyStartsWith content "Update" then pyReplaceFirst content "Update" "Updating"
  else if pyStartsWith content "Fix" then pyReplaceFirst content "Fix" "Fixing"
  else if pyStartsWith content "Implement" then pyReplaceFirst content "Implement" "Implementing"
  else if pyStartsWith content "Remove" then pyReplaceFirst content "Remove" "Removing"
  else if pyStartsWith content "Refactor" then pyReplaceFirst content "Refactor" "Refactoring"
  else "Working on: " ++ content

/-- The active-form table exactly as the claim states it: six prefixes
(Add, Create, Fix, Implement, Remove, Refactor) and the default for
every description not matching a listed prefix.  Stated from the claim's
words, to compare against the code's activeFormOf. -/
def claimActiveForm (content : String) : String :=
  if pyStartsWith content "Add" then "Adding" ++ stringDrop content 3
  else if pyStartsWith content "Create" then "Creating" ++ stringDrop content 6
  else if pyStartsWith content "Fix" then "Fixing" ++ stringDrop content 3
  else if pyStartsWith content "Implement" then "Implementing" ++ stringDrop content 9
  else if pyStartsWith content "Remove" then "Removing" ++ stringDrop content 6
  else if pyStartsWith content "Refactor" then "Refactoring" ++ stringDrop content 8
  else "Working on: " ++ content

/-- The amended table: the code's seven prefixes (the claim's six plus
Update→Updating), each as a prefix substitution, with the same
default. -/
def amendedActiveForm (content : String) : String :=
  if pyStartsWith content "Add" then "Adding" ++ stringDrop content 3
  else if pyStartsWith content "Create" then "Creating" ++ stringDrop content 6
  else if pyStartsWith content "Update" then "Updating" ++ stringDrop content 6
  else if pyStartsWith content "Fix" then "Fixing" ++ stringDrop content 3
  else if pyStartsWith content "Implement" then "Implementing" ++ stringDrop content 9
  else if pyStartsWith content "Remove" then "Removing" ++ stringDrop content 6
  else if pyStartsWith content "Refactor" then "Refactoring" ++ stringDrop content 8
  else "Working on: " ++ content

/-- Plan.to_tasks from core/plan.py: one task dict per step, content the
step description, active_form from the heuristic, metadata from the
step; verification_steps are not added. -/
def Plan.to_tasks (p : Plan) : List PlanTaskDict :=
  p.steps.map fun step =>
    ⟨step.description, activeFormOf step.description,
     step.files_involved, step.estimated_complexity⟩

/-! ### Concrete inputs used by witnesses and counterexamples -/

/-- An initial conversation state. -/
def emptyActState : ConversationState := ⟨[], Mode.act, ".", "", ""⟩

/-- Operation sequence for the C1 witness: two tasks added (ids 0 and 1),
the first started. -/
def c1WitnessOps : List TaskOp :=
  [TaskOp.add "write tests" "Writing tests",
   TaskOp.add "run tests" "Running tests",
   TaskOp.start 0]

/-- Concrete task list for the C10 witness: one in-progress task with
id 0; id 7 is absent. -/
def c10WitnessList : TaskList :=
  ⟨[⟨0, "write tests", "Writing tests", TaskState.in_progress⟩], 1, 5⟩

/-- Concrete task list for the second C10 witness: one pending task, so
nothing is in progress; id 7 is absent. -/
def c10WitnessListIdle : TaskList :=
  ⟨[⟨0, "write tests", "Writing tests", TaskState.pending⟩], 1, 5⟩

/-- Agent environment for the C4 counterexample: a registry holding one
write tool and an approval callback that declines everything. -/
def c4Env : AgentEnv :=
  ⟨[⟨"write_file", Permission.write, fun _ => Except.ok ⟨true, "written", none⟩⟩],
   Mode.act, fun _ _ => false⟩

/-- Scripted provider for the C4 counterexample: the first response
requests the write tool, the second is a plain text reply. -/
def c4Script : List ProviderResponse :=
  [⟨"", [⟨"call-1", "write_file", [("file_path", "a.txt")]⟩]⟩,
   ⟨"done", []⟩]

/-- Conversation state for the C5 witness: a plain user message, an
assistant message bearing two tool calls, and a tool-result message. -/
def c5WitnessState : ConversationState :=
  ⟨[⟨Role.user, "hello", 3, none, none⟩,
    ⟨Role.assistant, "reading", 4,
     some [⟨"call-1", "read_file", [("file_path", "a.txt")]⟩,
           ⟨"call-2", "grep", [("pattern", "foo")]⟩], none⟩,
    ⟨Role.tool, "contents", 5, none,
     some ⟨"call-1", "read_file", "contents", true⟩⟩],
   Mode.plan, "/repo", "m", "p"⟩

/-- A second conversation state the C5 witness restores into. -/
def c5WitnessBase : ConversationState := ⟨[], Mode.act, ".", "", ""⟩

/-- Session for the C6 witness: checkpoints 1..5 with snapshot files
s1..s5. -/
def c6WitnessSession : Session :=
  ⟨[⟨1, "one", "t1"⟩, ⟨2, "two", "t2"⟩, ⟨3, "three", "t3"⟩,
    ⟨4, "four", "t4"⟩, ⟨5, "five", "t5"⟩],
   fun j => if 1 ≤ j ∧ j ≤ 5 then some ("s" ++ toString j) else none⟩

/-- Plan for the C7 counterexample: a single step whose description
starts with Update, the prefix the claim's table omits. -/
def c7UpdatePlan : Plan :=
  ⟨"t", "o", [⟨"Update the docs", [], "medium", ""⟩], []⟩

/-- Agent environment for the C8 witness: act mode, empty registry (the
scripted calls fail as unknown tools, which still keeps the loop
iterating). -/
def c8WitnessEnv : AgentEnv := ⟨[], Mode.act, fun _ _ => true⟩

/-- Scripted provider for the C8 witness: 20 responses that each request
another tool call. -/
def c8WitnessScript : List ProviderResponse :=
  List.replicate 20 ⟨"", [⟨"c", "loop_tool", []⟩]⟩

/-- Plan-mode agent environment for the C8 witness's unbounded part. -/
def c8PlanEnv : AgentEnv := ⟨[], Mode.plan, fun _ _ => true⟩

/-- Scripted provider with 30 tool-call responses, more than the act-mode
cap, for the C8 witness's plan-mode part. -/
def c8PlanScript : List ProviderResponse :=
  List.replicate 30 ⟨"", [⟨"c", "loop_tool", []⟩]⟩

/-- Agent environment for the C9 witness: one read tool whose execute
raises, in act mode, with approvals granted. -/
def c9Env : AgentEnv :=
  ⟨[⟨"read_file", Permission.read, fun _ => Except.error "boom"⟩,
    ⟨"create_plan", Permission.plan, defaultExec⟩],
   Mode.act, fun _ _ => true⟩

/-! ## Lemmas about the task list state machine -/

theorem inProgressCount_append (l1 l2 : List Task) :
    inProgressCount (l1 ++ l2) = inProgressCount l1 + inProgressCount l2 := by
  simp [inProgressCount, List.countP_append]

theorem updateFirstTask_map_id (l : List Task) (task_id : Nat)
    (f : Task → Task) (hf : ∀ t, (f t).id = t.id) :
    (updateFirstTask l task_id f).map Task.id = l.map Task.id := by
  induction l with
  | nil => rfl
  | cons t ts ih =>
      by_cases h : t.id = task_id
      · simp [updateFirstTask, h, hf]
      · simp [updateFirstTask, h, ih]

theorem updateFirstTask_count_le (l : List Task) (task_id : Nat)
    (f : Task → Task) :
    inProgressCount (updateFirstTask l task_id f) ≤ inProgressCount l + 1 := by
  induction l with
  | nil => simp [updateFirstTask, inProgressCount]
  | cons t ts ih =>
      by_cases h : t.id = task_id
      · simp only [updateFirstTask, if_pos h, inProgressCount, List.countP_cons]
        split_ifs <;> simp_all [inProgressCount] <;> omega
      · simp only [updateFirstTask, if_neg h, inProgressCount, List.countP_cons]
        simp only [inProgressCount] at ih
        split_ifs <;> omega

theorem get_in_progress_eq_none_count (tl : TaskList)
    (h : tl.get_in_progress = none) : inProgressCount tl.tasks = 0 := by
  rw [TaskList.get_in_progress, List.find?_eq_none] at h
  rw [inProgressCount, List.countP_eq_zero]
  exact h

theorem find?_id_of_nodup (l : List Task) (c : Task)
    (hnd : (l.map Task.id).Nodup) (hc : c ∈ l) :
    l.find? (fun t => decide (t.id = c.id)) = some c := by
  induction l with
  | nil => cases hc
  | cons t ts ih =>
      rcases List.mem_cons.mp hc with hceq | hmem
      · subst hceq
        rw [List.find?_cons_of_pos _ (by simp)]
      · have hnd' : (ts.map Task.id).Nodup := (List.nodup_cons.mp hnd).2
        have hne : t.id ≠ c.id := by
          intro he
          exact (List.nodup_cons.mp hnd).1
            (he ▸ List.mem_map_of_mem Task.id hmem)
        rw [List.find?_cons_of_neg _ (by simp [hne])]
        exact ih hnd' hmem

theorem count_update_start (l : List Task) (task_id : Nat) (c : Task)
    (hfind : l.find? (fun t => decide (t.id = task_id)) = some c)
    (hst : c.state = TaskState.in_progress) :
    inProgressCount (updateFirstTask l task_id Task.start) =
      inProgressCount l := by
  induction l with
  | nil => simp at hfind
  | cons t ts ih =>
      by_cases h : t.id = task_id
      · rw [List.find?_cons_of_pos _ (by simp [h])] at hfind
        injection hfind with ht
        subst ht
        simp [updateFirstTask, h, inProgressCount, List.countP_cons,
          Task.start, hst]
      · rw [List.find?_cons_of_neg _ (by simp [h])] at hfind
        simp only [updateFirstTask, if_neg h, inProgressCount, List.countP_cons]
        have hih := ih hfind
        simp only [inProgressCount] at hih
        split_ifs <;> omega

theorem count_update_complete_le (l : List Task) (task_id : Nat) :
    inProgressCount (updateFirstTask l task_id Task.complete) ≤
      inProgressCount l := by
  induction l with
  | nil => simp [updateFirstTask, inProgressCount]
  | cons t ts ih =>
      by_cases h : t.id = task_id
      · simp only [updateFirstTask, if_pos h, inProgressCount, List.countP_cons]
        simp [Task.complete]
      · simp only [updateFirstTask, if_neg h, inProgressCount, List.countP_cons]
        simp only [inProgressCount] at ih
        split_ifs <;> omega

theorem mem_id_bound (l : List Task) (bound : Nat)
    (h : ∀ t ∈ l, t.id < bound) {l' : List Task}
    (hids : l'.map Task.id = l.map Task.id) : ∀ t ∈ l', t.id < bound := by
  intro t ht
  have hm : t.id ∈ l'.map Task.id := List.mem_map_of_mem Task.id ht
  rw [hids] at hm
  obtain ⟨y, hy, hye⟩ := List.mem_map.mp hm
  exact hye ▸ h y hy

theorem add_task_inv (tl : TaskList) (c a : String) (h : TaskInv tl) :
    TaskInv (tl.add_task c a).1 := by
  obtain ⟨h1, h2, h3⟩ := h
  refine ⟨?_, ?_, ?_⟩
  · rw [TaskList.add_task]
    simp only
    rw [inProgressCount_append]
    simpa [inProgressCount] using h1
  · rw [TaskList.add_task]
    simp only [List.map_append]
    rw [List.nodup_append]
    refine ⟨h2, by simp, ?_⟩
    intro x hx hx'
    obtain ⟨y, hy, hye⟩ := List.mem_map.mp hx
    simp only [List.map_cons, List.map_nil, List.mem_singleton] at hx'
    have := h3 y hy
    omega
  · intro t ht
    rw [TaskList.add_task] at ht
    simp only [List.mem_append, List.mem_singleton] at ht
    rcases ht with ht | ht
    · have := h3 t ht
      simp [TaskList.add_task]
      omega
    · subst ht
      simp [TaskList.add_task]

theorem add_tasks_foldl_inv (items : List (String × String)) :
    ∀ acc : TaskList × List Task, TaskInv acc.1 →
      TaskInv ((items.foldl
        (fun acc it =>
          let r := acc.1.add_task it.1 it.2
          (r.1, acc.2 ++ [r.2])) acc).1) := by
  induction items with
  | nil => intro acc h; exact h
  | cons it its ih =>
      intro acc h
      simp only [List.foldl_cons]
      exact ih _ (add_task_inv _ _ _ h)

theorem add_tasks_inv (tl : TaskList) (items : List (String × String))
    (h : TaskInv tl) : TaskInv (tl.add_tasks items).1 :=
  add_tasks_foldl_inv items (tl, []) h

theorem start_task_body_inv (tl : TaskList) (task_id : Nat)
    (h : TaskInv tl) (hcount : inProgressCount tl.tasks = 0 ∨
      ∃ c, tl.tasks.find? (fun t => decide (t.id = task_id)) = some c ∧
        c.state = TaskState.in_progress) :
    TaskInv (tl.start_task_body task_id).1 := by
  obtain ⟨h1, h2, h3⟩ := h
  rw [TaskList.start_task_body]
  cases hg : tl.get_task task_id with
  | none => exact ⟨h1, h2, h3⟩
  | some t =>
      have hids : (updateFirstTask tl.tasks task_id Task.start).map Task.id =
          tl.tasks.map Task.id :=
        updateFirstTask_map_id _ _ _ (fun _ => rfl)
      refine ⟨?_, ?_, ?_⟩
      · rcases hcount with hc0 | ⟨c, hfind, hst⟩
        · have := updateFirstTask_count_le tl.tasks task_id Task.start
          simp only
          omega
        · simp only
          rw [count_update_start tl.tasks task_id c hfind hst]
          exact h1
      · simp only
        rw [hids]
        exact h2
      · simp only
        exact mem_id_bound tl.tasks tl.next_id h3 hids

theorem start_task_inv (tl : TaskList) (task_id : Nat) (h : TaskInv tl) :
    TaskInv (tl.start_task task_id).1 := by
  rw [TaskList.start_task]
  cases hip : tl.get_in_progress with
  | none =>
      exact start_task_body_inv tl task_id h
        (Or.inl (get_in_progress_eq_none_count tl hip))
  | some current =>
      show TaskInv (if current.id = task_id then tl.start_task_body task_id
        else (tl, Except.error (alreadyInProgressMsg task_id current.content))).1
      by_cases he : current.id = task_id
      · rw [if_pos he]
        have hip' := hip
        rw [TaskList.get_in_progress] at hip'
        have hst : current.state = TaskState.in_progress := by
          simpa using List.find?_some hip'
        have hmem : current ∈ tl.tasks := List.mem_of_find?_eq_some hip'
        have hfind := find?_id_of_nodup tl.tasks current h.2.1 hmem
        rw [he] at hfind
        exact start_task_body_inv tl task_id h (Or.inr ⟨current, hfind, hst⟩)
      · rw [if_neg he]
        exact h

theorem complete_task_inv (tl : TaskList) (task_id : Nat) (h : TaskInv tl) :
    TaskInv (tl.complete_task task_id).1 := by
  obtain ⟨h1, h2, h3⟩ := h
  rw [TaskList.complete_task]
  cases hg : tl.get_task task_id with
  | none => exact ⟨h1, h2, h3⟩
  | some t =>
      have hids : (updateFirstTask tl.tasks task_id Task.complete).map Task.id =
          tl.tasks.map Task.id :=
        updateFirstTask_map_id _ _ _ (fun _ => rfl)
      refine ⟨?_, ?_, ?_⟩
      · have := count_update_complete_le tl.tasks task_id
        simp only
        omega
      · simp only
        rw [hids]
        exact h2
      · simp only
        exact mem_id_bound tl.tasks tl.next_id h3 hids

theorem removeFirstTask_sublist (l : List Task) (task_id : Nat) :
    List.Sublist (removeFirstTask l task_id) l := by
  induction l with
  | nil => simp [removeFirstTask]
  | cons t ts ih =>
      by_cases h : t.id = task_id
      · simp only [removeFirstTask, if_pos h]
        exact (List.Sublist.refl ts).cons t
      · simp only [removeFirstTask, if_neg h]
        exact ih.cons₂ t

theorem sublist_tasks_inv (tl : TaskList) (l' : List Task)
    (hsub : List.Sublist l' tl.tasks) (h : TaskInv tl) (w : Nat) :
    TaskInv ⟨l', tl.next_id, w⟩ := by
  obtain ⟨h1, h2, h3⟩ := h
  refine ⟨?_, ?_, ?_⟩
  · exact le_trans (List.Sublist.countP_le _ hsub) h1
  · exact h2.sublist (hsub.map Task.id)
  · intro t ht
    exact h3 t (hsub.subset ht)

theorem remove_task_inv (tl : TaskList) (task_id : Nat) (h : TaskInv tl) :
    TaskInv (tl.remove_task task_id).1 := by
  rw [TaskList.remove_task]
  split_ifs
  · exact sublist_tasks_inv tl _ (removeFirstTask_sublist tl.tasks task_id) h _
  · exact h

theorem clear_completed_inv (tl : TaskList) (h : TaskInv tl) :
    TaskInv tl.clear_completed.1 := by
  rw [TaskList.clear_completed]
  simp only [gt_iff_lt]
  split_ifs
  · exact sublist_tasks_inv tl _ (List.filter_sublist tl.tasks) h _
  · exact sublist_tasks_inv tl _ (List.filter_sublist tl.tasks) h _

theorem clear_all_inv (tl : TaskList) (_h : TaskInv tl) :
    TaskInv tl.clear_all := by
  refine ⟨?_, ?_, ?_⟩ <;> simp [TaskList.clear_all, inProgressCount]

theorem applyTaskOp_inv (tl : TaskList) (op : TaskOp) (h : TaskInv tl) :
    TaskInv (applyTaskOp tl op) := by
  cases op with
  | add c a => exact add_task_inv tl c a h
  | add_many items => exact add_tasks_inv tl items h
  | start i => exact start_task_inv tl i h
  | complete i => exact complete_task_inv tl i h
  | remove i => exact remove_task_inv tl i h
  | clear_completed => exact clear_completed_inv tl h
  | clear_all => exact clear_all_inv tl h

/-! ## Claim C2 -/

/-- C2: the mode/permission matrix.  is_allowed_in_mode and
requires_approval are pure functions of the permission class and mode
(they are defined on exactly those two arguments), and return the
tabulated values: in plan mode READ and PLAN are allowed without
approval and WRITE/EXECUTE are not allowed; in act mode READ is allowed
without approval, WRITE and EXECUTE are allowed with approval, and PLAN
tools are not allowed; in bash mode no tool is allowed. -/
theorem c2_mode_permission_matrix :
    is_allowed_in_mode Permission.read Mode.plan = true ∧
    requires_approval Permission.read Mode.plan = false ∧
    is_allowed_in_mode Permission.plan Mode.plan = true ∧
    requires_approval Permission.plan Mode.plan = false ∧
    is_allowed_in_mode Permission.write Mode.plan = false ∧
    is_allowed_in_mode Permission.execute Mode.plan = false ∧
    is_allowed_in_mode Permission.read Mode.act = true ∧
    requires_approval Permission.read Mode.act = false ∧
    is_allowed_in_mode Permission.write Mode.act = true ∧
    requires_approval Permission.write Mode.act = true ∧
    is_allowed_in_mode Permission.execute Mode.act = true ∧
    requires_approval Permission.execute Mode.act = true ∧
    is_allowed_in_mode Permission.plan Mode.act = false ∧
    ∀ p : Permission, is_allowed_in_mode p Mode.bash = false := by
  refine ⟨rfl, rfl, rfl, rfl, rfl, rfl, rfl, rfl, rfl, rfl, rfl, rfl, rfl, ?_⟩
  intro p
  rfl

/-! ## Claim C3 -/

/-- C3 is false on the code and contradicts the repository's own tests:
get_for_context hides create_plan in plan mode once a plan exists
(tests/test_prompts.py::test_plan_mode_with_plan_still_has_create_plan
asserts it must stay visible for restarting a plan) and hides the
READ-permission todo_write tool in plan mode until a plan exists
(test_plan_mode_has_todo_write_for_list asserts it is present).  This
theorem evaluates the code on the default registry at those failing
inputs, and also records the parts of the claim the code does satisfy:
update_plan/finalize_plan hidden without a plan and shown with one,
read_file always visible in plan mode, and no PLAN-permission tool ever
returned in act mode. -/
theorem c3_get_for_context_evaluation :
    (((get_for_context default_tools Mode.plan true).map ToolSpec.name).contains "create_plan" = false) ∧
    (((get_for_context default_tools Mode.plan false).map ToolSpec.name).contains "todo_write" = false) ∧
    (((get_for_context default_tools Mode.plan true).map ToolSpec.name).contains "update_plan" = true) ∧
    (((get_for_context default_tools Mode.plan true).map ToolSpec.name).contains "finalize_plan" = true) ∧
    (((get_for_context default_tools Mode.plan false).map ToolSpec.name).contains "create_plan" = true) ∧
    (((get_for_context default_tools Mode.plan false).map ToolSpec.name).contains "update_plan" = false) ∧
    (((get_for_context default_tools Mode.plan false).map ToolSpec.name).contains "finalize_plan" = false) ∧
    (((get_for_context default_tools Mode.plan false).map ToolSpec.name).contains "read_file" = true) ∧
    (((get_for_context default_tools Mode.plan true).map ToolSpec.name).contains "read_file" = true) ∧
    ((get_for_context default_tools Mode.act true).all
      (fun t => !decide (t.permission = Permission.plan)) = true) ∧
    ((get_for_context default_tools Mode.act false).all
      (fun t => !decide (t.permission = Permission.plan)) = true) := by
  refine ⟨?_, ?_, ?_, ?_, ?_, ?_, ?_, ?_, ?_, ?_, ?_⟩ <;> decide

theorem empty_task_inv : TaskInv TaskList.empty := by
  refine ⟨?_, ?_, ?_⟩ <;> simp [TaskList.empty, inProgressCount]

theorem foldl_taskops_inv (ops : List TaskOp) :
    ∀ tl : TaskList, TaskInv tl → TaskInv (ops.foldl applyTaskOp tl) := by
  induction ops with
  | nil => intro tl h; exact h
  | cons op ops ih =>
      intro tl h
      simp only [List.foldl_cons]
      exact ih _ (applyTaskOp_inv tl op h)

theorem runTaskOps_inv (ops : List TaskOp) : TaskInv (runTaskOps ops) :=
  foldl_taskops_inv ops TaskList.empty empty_task_inv

/-! ## Claim C1 -/

/-- C1: for every sequence of TaskList operations starting from the empty
list, at most one task is in_progress at any point (every prefix of the
sequence is itself a sequence, so the bound holds at every intermediate
state), and calling start_task with an id different from the in-progress
task's id raises the ValueError naming the active task and returns with
every task — including the active one — unchanged. -/
theorem c1_single_in_progress (ops : List TaskOp) :
    inProgressCount (runTaskOps ops).tasks ≤ 1 ∧
    ∀ task_id current, (runTaskOps ops).get_in_progress = some current →
      current.id ≠ task_id →
      (runTaskOps ops).start_task task_id =
        (runTaskOps ops,
         Except.error (alreadyInProgressMsg task_id current.content)) := by
  constructor
  · exact (runTaskOps_inv ops).1
  · intro task_id current hip hne
    rw [TaskList.start_task, hip]
    exact if_neg hne

/-- Witness for C1: two tasks added (ids 0, 1), task 0 started; the count
is at most one and starting task 1 raises the in-progress error naming
task 0 while leaving the list unchanged. -/
theorem c1_single_in_progress_witness :
    inProgressCount (runTaskOps c1WitnessOps).tasks ≤ 1 ∧
    (runTaskOps c1WitnessOps).start_task 1 =
      (runTaskOps c1WitnessOps,
       Except.error (alreadyInProgressMsg 1 "write tests")) := by
  refine ⟨(c1_single_in_progress c1WitnessOps).1, ?_⟩
  exact (c1_single_in_progress c1WitnessOps).2 1
    ⟨0, "write tests", "Writing tests", TaskState.in_progress⟩
    (by decide) (by decide)

/-! ## Claim C10 -/

/-- C10: for a task id absent from the list, start_task raises the
already-in-progress ValueError naming the active task when some other
task is in progress, and when nothing is in progress both start_task and
complete_task return None with the task list — including its persistence
write counter, so the sidecar file is not rewritten — unchanged. -/
theorem c10_absent_task_id (tl : TaskList) (task_id : Nat)
    (habs : ∀ t ∈ tl.tasks, t.id ≠ task_id) :
    (∀ current, tl.get_in_progress = some current →
      tl.start_task task_id =
        (tl, Except.error (alreadyInProgressMsg task_id current.content))) ∧
    (tl.get_in_progress = none →
      tl.start_task task_id = (tl, Except.ok none)) ∧
    tl.complete_task task_id = (tl, none) := by
  have hg : tl.get_task task_id = none := by
    rw [TaskList.get_task, List.find?_eq_none]
    intro t ht
    simp [habs t ht]
  refine ⟨?_, ?_, ?_⟩
  · intro current hip
    have hmem : current ∈ tl.tasks := by
      rw [TaskList.get_in_progress] at hip
      exact List.mem_of_find?_eq_some hip
    rw [TaskList.start_task, hip]
    exact if_neg (habs current hmem)
  · intro hip
    rw [TaskList.start_task, hip]
    show tl.start_task_body task_id = (tl, Except.ok none)
    rw [TaskList.start_task_body, hg]
  · rw [TaskList.complete_task, hg]

/-- Witness for C10: id 7 is absent from both concrete lists; with task 0
in progress, start_task 7 raises the error naming task 0; with nothing
in progress, start_task 7 and complete_task 7 return None and leave the
list (write counter included) untouched. -/
theorem c10_absent_task_id_witness :
    c10WitnessList.start_task 7 =
      (c10WitnessList, Except.error (alreadyInProgressMsg 7 "write tests")) ∧
    c10WitnessListIdle.start_task 7 = (c10WitnessListIdle, Except.ok none) ∧
    c10WitnessListIdle.complete_task 7 = (c10WitnessListIdle, none) := by
  refine ⟨?_, ?_, ?_⟩
  · exact (c10_absent_task_id c10WitnessList 7 (by decide)).1
      ⟨0, "write tests", "Writing tests", TaskState.in_progress⟩ (by decide)
  · exact (c10_absent_task_id c10WitnessListIdle 7 (by decide)).2.1 (by decide)
  · exact (c10_absent_task_id c10WitnessListIdle 7 (by decide)).2.2

/-! ## Lemmas for conversation-state serialization -/

theorem role_value_roundtrip (r : Role) : Role.fromValue? r.value = some r := by
  cases r <;> rfl

theorem mode_value_roundtrip (mo : Mode) : Mode.fromValue? mo.value = some mo := by
  cases mo <;> rfl

theorem toolCall_dict_roundtrip (l : List ToolCall) :
    List.map ((fun tc : ToolCallDict => (⟨tc.id, tc.name, tc.arguments⟩ : ToolCall)) ∘
      fun tc : ToolCall => (⟨tc.id, tc.name, tc.arguments⟩ : ToolCallDict)) l = l := by
  induction l with
  | nil => rfl
  | cons tc l ih => simp [ih]

theorem message_roundtrip (m : Message) (h : m.tool_calls ≠ some []) :
    Message.from_dict m.to_dict = some m := by
  obtain ⟨role, content, ts, tcs, trs⟩ := m
  cases tcs with
  | none =>
      cases trs with
      | none => simp [Message.to_dict, Message.from_dict, role_value_roundtrip]
      | some tr => simp [Message.to_dict, Message.from_dict, role_value_roundtrip]
  | some l =>
      cases l with
      | nil => exact absurd rfl h
      | cons a l =>
          cases trs with
          | none =>
              simp [Message.to_dict, Message.from_dict, role_value_roundtrip]
              exact toolCall_dict_roundtrip l
          | some tr =>
              simp [Message.to_dict, Message.from_dict, role_value_roundtrip]
              exact toolCall_dict_roundtrip l

theorem messagesFromDicts_roundtrip (l : List Message)
    (h : ∀ m ∈ l, m.tool_calls ≠ some []) :
    messagesFromDicts (l.map Message.to_dict) = some l := by
  induction l with
  | nil => rfl
  | cons m l ih =>
      simp only [List.map_cons, messagesFromDicts,
        message_roundtrip m (h m (by simp)),
        ih (fun m' hm' => h m' (by simp [hm']))]

/-! ## Claim C5 -/

/-- C5: serializing a ConversationState with to_dict and restoring with
from_dict reproduces every message — role, content, tool_calls (id, name,
arguments), tool_result (tool_call_id, name, result, success) and
timestamp — in the same order (the restored state equals the original
one field for field).  The hypothesis restricts to states whose messages
carry either no tool-call list or a non-empty one: a message holding the
empty list is none of the claim's three message kinds (to_dict writes
such a list as null, Python's falsy check, so it would come back as
None). -/
theorem c5_roundtrip (s0 s : ConversationState)
    (h : ∀ m ∈ s.messages, m.tool_calls ≠ some []) :
    s0.from_dict s.to_dict = some s := by
  obtain ⟨msgs, mo, wd, md, pv⟩ := s
  simp only [ConversationState.to_dict, ConversationState.from_dict,
    mode_value_roundtrip, messagesFromDicts_roundtrip msgs h]

/-- Witness for C5: a concrete state holding a plain user message, an
assistant message bearing two tool calls, and a tool-result message
round-trips to itself. -/
theorem c5_roundtrip_witness :
    (∀ m ∈ c5WitnessState.messages, m.tool_calls ≠ some []) ∧
    c5WitnessBase.from_dict c5WitnessState.to_dict = some c5WitnessState :=
  ⟨by decide, c5_roundtrip c5WitnessBase c5WitnessState (by decide)⟩

/-! ## Lemmas for session rewind -/

theorem foldl_eraseFile (f : Nat → Option String) (c : Nat) :
    ∀ (a j : Nat), ((List.range' a c).foldl eraseFile f) j =
      if a ≤ j ∧ j < a + c then none else f j := by
  induction c generalizing f with
  | zero =>
      intro a j
      rw [if_neg (by omega)]
      rfl
  | succ c ih =>
      intro a j
      rw [List.range'_succ, List.foldl_cons, ih (eraseFile f a) (a + 1) j]
      simp only [eraseFile]
      split_ifs <;> first | rfl | omega

/-! ## Claim C6 -/

/-- C6: for a session whose checkpoints are numbered 1..n, each with a
stored snapshot file, rewind_to k with 1 ≤ k ≤ n succeeds returning
checkpoint k's snapshot, truncates the in-memory list to checkpoints
1..k, and deletes exactly the snapshot files of checkpoints k+1..n
(files up to k are untouched); rewind_to m with m < 1 or m > n fails
with the out-of-range message and changes neither the checkpoint list
nor any snapshot file — no clamping. -/
theorem c6_rewind (s : Session) (n : Nat)
    (hlen : s.checkpoints.length = n)
    (_hnum : ∀ i (hi : i < s.checkpoints.length),
      (s.checkpoints.get ⟨i, hi⟩).number = i + 1)
    (hsnap : ∀ i, i ≤ n → 1 ≤ i → (s.files i).isSome = true) :
    (∀ k, 1 ≤ k → k ≤ n →
      ((s.rewind_to k).1.checkpoints = s.checkpoints.take k ∧
       (∀ j, (s.rewind_to k).1.files j =
         if k < j ∧ j ≤ n then none else s.files j) ∧
       (s.rewind_to k).2 =
         (true,
          "Rewound to checkpoint " ++ toString k ++ ": " ++
            ((s.checkpoints.take k).getD (k - 1) ⟨0, "", ""⟩).message,
          s.files k))) ∧
    (∀ m, m < 1 ∨ m > n →
      s.rewind_to m =
        (s, false,
         "Invalid checkpoint " ++ toString m ++ ". Range: 1-" ++ toString n,
         none)) := by
  constructor
  · intro k hk1 hkn
    obtain ⟨st, hst⟩ := Option.isSome_iff_exists.mp (hsnap k hkn hk1)
    have hload : s.load_checkpoint k = some st := by
      rw [Session.load_checkpoint, hst]
    have heq : s.rewind_to k =
        ({ checkpoints := s.checkpoints.take k,
           files := (List.range' (k + 1) (s.checkpoints.length - k)).foldl
             eraseFile s.files },
         true,
         "Rewound to checkpoint " ++ toString k ++ ": " ++
           ((s.checkpoints.take k).getD (k - 1) ⟨0, "", ""⟩).message,
         some st) := by
      rw [Session.rewind_to, if_neg (by rw [hlen]; omega), hload]
    rw [heq]
    refine ⟨rfl, ?_, ?_⟩
    · intro j
      show ((List.range' (k + 1) (s.checkpoints.length - k)).foldl
        eraseFile s.files) j = _
      rw [foldl_eraseFile, hlen]
      split_ifs <;> first | rfl | omega
    · rw [hst]
  · intro m hm
    rw [Session.rewind_to, if_pos (by rw [hlen]; exact hm), hlen]

/-- Witness for C6 on a session with checkpoints 1..5: rewind_to 3 keeps
exactly checkpoints 1-3, deletes snapshot files 4 and 5 while keeping
file 2, and returns snapshot s3; rewind_to 6 and rewind_to 0 both fail
leaving the session unchanged. -/
theorem c6_rewind_witness :
    (c6WitnessSession.rewind_to 3).1.checkpoints =
      [⟨1, "one", "t1"⟩, ⟨2, "two", "t2"⟩, ⟨3, "three", "t3"⟩] ∧
    (c6WitnessSession.rewind_to 3).1.files 4 = none ∧
    (c6WitnessSession.rewind_to 3).1.files 5 = none ∧
    (c6WitnessSession.rewind_to 3).1.files 2 = some "s2" ∧
    (c6WitnessSession.rewind_to 3).2 =
      (true, "Rewound to checkpoint 3: three", some "s3") ∧
    c6WitnessSession.rewind_to 6 =
      (c6WitnessSession, false,
       "Invalid checkpoint " ++ toString 6 ++ ". Range: 1-" ++ toString 5,
       none) ∧
    c6WitnessSession.rewind_to 0 =
      (c6WitnessSession, false,
       "Invalid checkpoint " ++ toString 0 ++ ". Range: 1-" ++ toString 5,
       none) := by
  have H := c6_rewind c6WitnessSession 5 rfl (by decide) (by decide)
  refine ⟨?_, ?_, ?_, ?_, ?_, ?_, ?_⟩
  · exact (H.1 3 (by decide) (by decide)).1
  · exact ((H.1 3 (by decide) (by decide)).2.1 4).trans (by decide)
  · exact ((H.1 3 (by decide) (by decide)).2.1 5).trans (by decide)
  · exact ((H.1 3 (by decide) (by decide)).2.1 2).trans (by decide)
  · exact ((H.1 3 (by decide) (by decide)).2.2).trans (by decide)
  · exact H.2 6 (by decide)
  · exact H.2 0 (by decide)

/-! ## Lemmas for the active-form heuristic -/

theorem replFirst_of_isPrefixOf (old new s : List Char)
    (h : old.isPrefixOf s = true) :
    replFirst old new s = new ++ s.drop old.length := by
  cases s with
  | nil =>
      rw [replFirst, if_pos h]
      simp
  | cons c cs =>
      rw [replFirst, if_pos h]

theorem pyReplaceFirst_of_startsWith (s pre rep : String)
    (h : pyStartsWith s pre = true) :
    pyReplaceFirst s pre rep = rep ++ stringDrop s pre.length := by
  rw [pyReplaceFirst, stringDrop, replFirst_of_isPrefixOf _ _ _ h]
  rfl

theorem activeForm_eq_amended (c : String) :
    activeFormOf c = amendedActiveForm c := by
  rw [activeFormOf, amendedActiveForm]
  split_ifs with h1 h2 h3 h4 h5 h6 h7
  · exact pyReplaceFirst_of_startsWith _ _ _ h1
  · exact pyReplaceFirst_of_startsWith _ _ _ h2
  · exact pyReplaceFirst_of_startsWith _ _ _ h3
  · exact pyReplaceFirst_of_startsWith _ _ _ h4
  · exact pyReplaceFirst_of_startsWith _ _ _ h5
  · exact pyReplaceFirst_of_startsWith _ _ _ h6
  · exact pyReplaceFirst_of_startsWith _ _ _ h7
  · rfl

/-! ## Claim C7 -/

/-- C7 counterexample: the claim's table omits the Update branch the code
has.  On a plan with the single step "Update the docs" the code produces
active form "Updating the docs", while the claim's six-prefix table maps
that description (matching none of its listed prefixes) to
"Working on: Update the docs" — and the two strings differ. -/
theorem c7_counterexample :
    Plan.to_tasks c7UpdatePlan =
      [⟨"Update the docs", "Updating the docs", [], "medium"⟩] ∧
    claimActiveForm "Update the docs" = "Working on: Update the docs" ∧
    (("Updating the docs" : String) = "Working on: Update the docs") = False := by
  refine ⟨by decide, by decide, ?_⟩
  simp only [eq_iff_iff, iff_false]
  decide

/-- C7 as amended: to_tasks produces exactly one task per step and none
for any verification step (it reads only the steps field), each task's
content equals the step description, and its active_form follows the
prefix-substitution table extended with the code's seventh entry
Update→Updating (every description matching no listed prefix maps to the
default "Working on: <description>"). -/
theorem c7_to_tasks_amended (p : Plan) :
    p.to_tasks = p.steps.map (fun step =>
      ⟨step.description, amendedActiveForm step.description,
       step.files_involved, step.estimated_complexity⟩) ∧
    p.to_tasks.length = p.steps.length ∧
    ∀ vs, Plan.to_tasks ⟨p.title, p.objective, p.steps, vs⟩ = p.to_tasks := by
  refine ⟨?_, ?_, fun vs => rfl⟩
  · simp only [Plan.to_tasks, activeForm_eq_amended]
  · simp [Plan.to_tasks]

/-! ## Lemmas for tool dispatch -/

theorem executeTool_some (env : AgentEnv) (tc : ToolCall) (tool : ToolSpec)
    (h : registryGet env.registry tc.name = some tool) :
    executeTool env tc =
      (if is_allowed_in_mode tool.permission env.mode = false then
        (⟨tc.id, tc.name, notAllowedMsg tc.name env.mode, false⟩, false)
      else if requires_approval tool.permission env.mode = true ∧
          env.approval tc.name tc.arguments = false then
        (⟨tc.id, tc.name, "Tool execution was declined by user", false⟩, false)
      else
        match tool.exec tc.arguments with
        | Except.ok r => (⟨tc.id, tc.name, r.str, r.success⟩, true)
        | Except.error e =>
            (⟨tc.id, tc.name, "Tool execution error: " ++ e, false⟩, true)) := by
  simp only [executeTool, h]

/-! ## Claim C9 -/

/-- C9: every dispatch outcome of Agent._execute_tool is a returned
StateToolResult, never a propagated exception (executeTool is a total
function into results).  A name absent from the registry yields the
failed unknown-tool result without executing anything; a tool whose
permission forbids the current mode yields the failed descriptive
not-allowed result without executing; and an exception raised inside the
tool's execute (reached when the tool is allowed and either needs no
approval or is approved) is caught and converted to the failed
tool-execution-error result rather than propagating. -/
theorem c9_execute_tool_errors (env : AgentEnv) (tc : ToolCall) :
    (registryGet env.registry tc.name = none →
      executeTool env tc =
        (⟨tc.id, tc.name, "Unknown tool: " ++ tc.name, false⟩, false)) ∧
    (∀ tool, registryGet env.registry tc.name = some tool →
      is_allowed_in_mode tool.permission env.mode = false →
      executeTool env tc =
        (⟨tc.id, tc.name, notAllowedMsg tc.name env.mode, false⟩, false)) ∧
    (∀ tool e, registryGet env.registry tc.name = some tool →
      is_allowed_in_mode tool.permission env.mode = true →
      (requires_approval tool.permission env.mode = false ∨
        env.approval tc.name tc.arguments = true) →
      tool.exec tc.arguments = Except.error e →
      executeTool env tc =
        (⟨tc.id, tc.name, "Tool execution error: " ++ e, false⟩, true)) := by
  refine ⟨?_, ?_, ?_⟩
  · intro h
    simp only [executeTool, h]
  · intro tool h hna
    rw [executeTool_some env tc tool h, if_pos hna]
  · intro tool e h hall happr hexc
    rw [executeTool_some env tc tool h,
      if_neg (by rw [hall]; simp),
      if_neg (by rintro ⟨hr, ha⟩; rcases happr with h' | h' <;> simp_all),
      hexc]

/-- Witness for C9 on a concrete registry (a read tool whose execute
raises "boom", and a plan tool, in act mode): an unknown name, a
mode-forbidden plan tool, and the raising execute each produce the
corresponding failed result. -/
theorem c9_execute_tool_errors_witness :
    executeTool c9Env ⟨"1", "nope", []⟩ =
      (⟨"1", "nope", "Unknown tool: nope", false⟩, false) ∧
    executeTool c9Env ⟨"2", "create_plan", []⟩ =
      (⟨"2", "create_plan", notAllowedMsg "create_plan" Mode.act, false⟩, false) ∧
    executeTool c9Env ⟨"3", "read_file", []⟩ =
      (⟨"3", "read_file", "Tool execution error: " ++ "boom", false⟩, true) := by
  refine ⟨?_, ?_, ?_⟩
  · exact (c9_execute_tool_errors c9Env ⟨"1", "nope", []⟩).1 rfl
  · exact (c9_execute_tool_errors c9Env ⟨"2", "create_plan", []⟩).2.1
      ⟨"create_plan", Permission.plan, defaultExec⟩ rfl rfl
  · exact (c9_execute_tool_errors c9Env ⟨"3", "read_file", []⟩).2.2
      ⟨"read_file", Permission.read, fun _ => Except.error "boom"⟩ "boom"
      rfl rfl (Or.inl rfl) rfl

/-! ## Lemmas for the chat loop -/

theorem execCalls_singleton (env : AgentEnv) (tc : ToolCall)
    (st : ConversationState) (clock : Nat) :
    execCalls env [tc] st clock =
      ⟨Event.toolCallEv tc.name tc.arguments ::
         Event.toolResultEv tc.name (executeTool env tc).1.result
           (executeTool env tc).1.success ::
         (if tc.name = "todo_write" ∧ (executeTool env tc).1.success = true then
           [Event.taskUpdateEv (executeTool env tc).1.result]
         else []),
       st.add_tool_result (executeTool env tc).1 clock,
       (if (executeTool env tc).2 then [tc.name] else []),
       clock + 1⟩ := by
  simp [execCalls]

theorem chatGo_cons_eq (env : AgentEnv) (resp : ProviderResponse)
    (rest : List ProviderResponse) (its : Nat) (m : Option Nat)
    (st : ConversationState) (clock : Nat)
    (hl : loopCond m its = true) (hne : resp.tool_calls.isEmpty = false) :
    chatGo env (resp :: rest) its m st clock =
      ⟨(if env.mode = Mode.act ∧ its + 1 = 20 then
          [Event.iterationLimitEv (its + 1)] else []) ++
         ((if resp.content = "" then [] else [Event.contentEv resp.content]) ++
          ((execCalls env resp.tool_calls
             (st.add_assistant_message resp.content (some resp.tool_calls) clock)
             (clock + 1)).events ++
           (chatGo env rest (its + 1) m
             (execCalls env resp.tool_calls
               (st.add_assistant_message resp.content (some resp.tool_calls) clock)
               (clock + 1)).state
             (execCalls env resp.tool_calls
               (st.add_assistant_message resp.content (some resp.tool_calls) clock)
               (clock + 1)).clock).events)),
       (chatGo env rest (its + 1) m
         (execCalls env resp.tool_calls
           (st.add_assistant_message resp.content (some resp.tool_calls) clock)
           (clock + 1)).state
         (execCalls env resp.tool_calls
           (st.add_assistant_message resp.content (some resp.tool_calls) clock)
           (clock + 1)).clock).state,
       1 + (chatGo env rest (its + 1) m
         (execCalls env resp.tool_calls
           (st.add_assistant_message resp.content (some resp.tool_calls) clock)
           (clock + 1)).state
         (execCalls env resp.tool_calls
           (st.add_assistant_message resp.content (some resp.tool_calls) clock)
           (clock + 1)).clock).calls,
       (execCalls env resp.tool_calls
         (st.add_assistant_message resp.content (some resp.tool_calls) clock)
         (clock + 1)).execs ++
       (chatGo env rest (its + 1) m
         (execCalls env resp.tool_calls
           (st.add_assistant_message resp.content (some resp.tool_calls) clock)
           (clock + 1)).state
         (execCalls env resp.tool_calls
           (st.add_assistant_message resp.content (some resp.tool_calls) clock)
           (clock + 1)).clock).execs⟩ := by
  simp only [chatGo, hl, hne, if_true, Bool.false_eq_true, if_false,
    List.append_assoc]

theorem chatGo_calls_pos (env : AgentEnv) (r : ProviderResponse)
    (rs : List ProviderResponse) (its : Nat) (m : Option Nat)
    (st : ConversationState) (clock : Nat) (hl : loopCond m its = true) :
    1 ≤ (chatGo env (r :: rs) its m st clock).calls := by
  simp only [chatGo, hl, if_true]
  split_ifs <;> simp

/-! ## Claim C4 -/

/-- C4 counterexample: a concrete act-mode turn whose first scripted
response requests a write tool and whose approval callback returns
false.  The declined failed ToolResult is produced and the tool's
execute never runs (execs is empty), but the turn does not end there:
the loop consumes a second provider response in the same turn
(calls = 2), refuting the claim's "issues no further model calls within
that same turn". -/
theorem c4_counterexample :
    (chat c4Env emptyActState "please write" c4Script).calls = 2 ∧
    (chat c4Env emptyActState "please write" c4Script).execs = [] ∧
    Event.toolResultEv "write_file" "Tool execution was declined by user" false ∈
      (chat c4Env emptyActState "please write" c4Script).events := by
  refine ⟨by decide, by decide, by decide⟩

/-- C4 as amended: when the model emits a tool call whose tool requires
approval and the approval callback returns false, the Agent produces the
failed declined ToolResult for that call and does not invoke the tool's
execute — but the turn does not end early: the loop proceeds to the
next iteration and issues at least one further model call whenever the
script provides another response.  (Ending the whole turn on decline
happens only when the callback raises instead of returning false, as
the CLI's callback does; that exception propagates out of Agent.chat.) -/
theorem c4_declined_continues (env : AgentEnv) (st0 : ConversationState)
    (msg : String) (tc : ToolCall) (tool : ToolSpec)
    (resp : ProviderResponse) (rest : List ProviderResponse)
    (henv : env.mode = Mode.act)
    (hreg : registryGet env.registry tc.name = some tool)
    (hallow : is_allowed_in_mode tool.permission Mode.act = true)
    (happr : requires_approval tool.permission Mode.act = true)
    (hdecl : env.approval tc.name tc.arguments = false)
    (hresp : resp.tool_calls = [tc])
    (hrest : rest ≠ []) :
    executeTool env tc =
      (⟨tc.id, tc.name, "Tool execution was declined by user", false⟩, false) ∧
    Event.toolResultEv tc.name "Tool execution was declined by user" false ∈
      (chat env st0 msg (resp :: rest)).events ∧
    2 ≤ (chat env st0 msg (resp :: rest)).calls := by
  have hexec : executeTool env tc =
      (⟨tc.id, tc.name, "Tool execution was declined by user", false⟩, false) := by
    rw [executeTool_some env tc tool hreg, henv,
      if_neg (by rw [hallow]; simp), if_pos ⟨happr, hdecl⟩]
  have hmax : (match env.mode with
      | Mode.plan => none
      | _ => some 25) = some 25 := by rw [henv]
  obtain ⟨r0, rs0, hr⟩ : ∃ r0 rs0, rest = r0 :: rs0 := by
    cases rest with
    | nil => exact absurd rfl hrest
    | cons r0 rs0 => exact ⟨r0, rs0, rfl⟩
  refine ⟨hexec, ?_, ?_⟩
  · rw [chat]
    simp only [hmax]
    rw [chatGo_cons_eq env resp rest 0 (some 25) _ 1 rfl (by rw [hresp]; rfl),
      hresp, execCalls_singleton, hexec]
    simp [List.mem_append]
  · rw [chat]
    simp only [hmax]
    rw [chatGo_cons_eq env resp rest 0 (some 25) _ 1 rfl (by rw [hresp]; rfl),
      hr]
    exact Nat.add_le_add_left
      (chatGo_calls_pos env r0 rs0 (0 + 1) (some 25) _ _ rfl) 1

/-- Witness for the amended C4 at the concrete declining setup of the
counterexample's environment and script. -/
theorem c4_declined_continues_witness :
    executeTool c4Env ⟨"call-1", "write_file", [("file_path", "a.txt")]⟩ =
      (⟨"call-1", "write_file", "Tool execution was declined by user", false⟩,
       false) ∧
    Event.toolResultEv "write_file" "Tool execution was declined by user" false ∈
      (chat c4Env emptyActState "please write" c4Script).events ∧
    2 ≤ (chat c4Env emptyActState "please write" c4Script).calls :=
  c4_declined_continues c4Env emptyActState "please write"
    ⟨"call-1", "write_file", [("file_path", "a.txt")]⟩
    ⟨"write_file", Permission.write, fun _ => Except.ok ⟨true, "written", none⟩⟩
    ⟨"", [⟨"call-1", "write_file", [("file_path", "a.txt")]⟩]⟩
    [⟨"done", []⟩]
    rfl rfl rfl rfl rfl rfl (by simp)

/-! ## Lemmas for the iteration cap -/

theorem chatGo_stop (env : AgentEnv) (script : List ProviderResponse)
    (its : Nat) (m : Option Nat) (st : ConversationState) (clock : Nat)
    (hl : loopCond m its = false) :
    chatGo env script its m st clock = ⟨[], st, 0, []⟩ := by
  cases script <;> simp [chatGo, hl]

theorem chatGo_nil_run (env : AgentEnv) (its : Nat) (m : Option Nat)
    (st : ConversationState) (clock : Nat) (hl : loopCond m its = true) :
    chatGo env [] its m st clock =
      ⟨(if env.mode = Mode.act ∧ its + 1 = 20 then
          [Event.iterationLimitEv (its + 1)] else []) ++
        [Event.errorEv "API error"], st, 0, []⟩ := by
  simp [chatGo, hl]

theorem chatGo_cons_notools (env : AgentEnv) (resp : ProviderResponse)
    (rest : List ProviderResponse) (its : Nat) (m : Option Nat)
    (st : ConversationState) (clock : Nat) (hl : loopCond m its = true)
    (hne : resp.tool_calls.isEmpty = true) :
    chatGo env (resp :: rest) its m st clock =
      ⟨(if env.mode = Mode.act ∧ its + 1 = 20 then
          [Event.iterationLimitEv (its + 1)] else []) ++
        (if resp.content = "" then [] else [Event.contentEv resp.content]),
       (if resp.content = "" then st
        else st.add_assistant_message resp.content none clock),
       1, []⟩ := by
  simp [chatGo, hl, hne]

theorem countIterLimit_append (l1 l2 : List Event) :
    countIterLimit (l1 ++ l2) = countIterLimit l1 + countIterLimit l2 := by
  simp [countIterLimit, List.countP_append]

theorem countIterLimit_content (c : String) :
    countIterLimit (if c = "" then [] else [Event.contentEv c]) = 0 := by
  split_ifs <;> rfl

theorem countIterLimit_warn (env : AgentEnv) (its : Nat) :
    countIterLimit (if env.mode = Mode.act ∧ its = 20 then
      [Event.iterationLimitEv its] else []) =
      if env.mode = Mode.act ∧ its = 20 then 1 else 0 := by
  split_ifs <;> rfl

theorem countIterLimit_execCalls (env : AgentEnv) (tcs : List ToolCall) :
    ∀ st clock, countIterLimit (execCalls env tcs st clock).events = 0 := by
  induction tcs with
  | nil => intro st clock; rfl
  | cons tc tcs ih =>
      intro st clock
      have hih := ih (st.add_tool_result (executeTool env tc).1 clock) (clock + 1)
      simp only [countIterLimit] at hih ⊢
      simp only [execCalls, List.countP_cons, List.countP_append, hih]
      split_ifs <;> trivial

theorem countIterLimit_chatGo_ge20 (env : AgentEnv)
    (script : List ProviderResponse) :
    ∀ its m st clock, 20 ≤ its →
      countIterLimit (chatGo env script its m st clock).events = 0 := by
  induction script with
  | nil =>
      intro its m st clock h20
      cases hl : loopCond m its with
      | false => rw [chatGo_stop env [] its m st clock hl]; rfl
      | true =>
          rw [chatGo_nil_run env its m st clock hl]
          simp only [countIterLimit_append, countIterLimit_warn]
          rw [if_neg (by rintro ⟨_, h⟩; omega)]
          rfl
  | cons resp rest ih =>
      intro its m st clock h20
      cases hl : loopCond m its with
      | false => rw [chatGo_stop env (resp :: rest) its m st clock hl]; rfl
      | true =>
          cases hne : resp.tool_calls.isEmpty with
          | true =>
              rw [chatGo_cons_notools env resp rest its m st clock hl hne]
              simp only [countIterLimit_append, countIterLimit_warn,
                countIterLimit_content]
              rw [if_neg (by rintro ⟨_, h⟩; omega)]
          | false =>
              have hih := ih (its + 1) m
                (execCalls env resp.tool_calls
                  (st.add_assistant_message resp.content (some resp.tool_calls) clock)
                  (clock + 1)).state
                (execCalls env resp.tool_calls
                  (st.add_assistant_message resp.content (some resp.tool_calls) clock)
                  (clock + 1)).clock (by omega)
              have hex := countIterLimit_execCalls env resp.tool_calls
                (st.add_assistant_message resp.content (some resp.tool_calls) clock)
                (clock + 1)
              rw [chatGo_cons_eq env resp rest its m st clock hl hne]
              simp only [countIterLimit_append, countIterLimit_warn,
                countIterLimit_content, hih, hex]
              rw [if_neg (by rintro ⟨_, h⟩; omega)]

theorem chatGo_calls_le (env : AgentEnv) (script : List ProviderResponse) :
    ∀ its st clock, (chatGo env script its (some 25) st clock).calls ≤ 25 - its := by
  induction script with
  | nil =>
      intro its st clock
      cases hl : loopCond (some 25) its with
      | false => rw [chatGo_stop env [] its (some 25) st clock hl]; simp
      | true => rw [chatGo_nil_run env its (some 25) st clock hl]; simp
  | cons resp rest ih =>
      intro its st clock
      cases hl : loopCond (some 25) its with
      | false => rw [chatGo_stop env (resp :: rest) its (some 25) st clock hl]; simp
      | true =>
          have h25 : its < 25 := by simpa [loopCond] using hl
          cases hne : resp.tool_calls.isEmpty with
          | true =>
              rw [chatGo_cons_notools env resp rest its (some 25) st clock hl hne]
              simp only
              omega
          | false =>
              have hih := ih (its + 1)
                (execCalls env resp.tool_calls
                  (st.add_assistant_message resp.content (some resp.tool_calls) clock)
                  (clock + 1)).state
                (execCalls env resp.tool_calls
                  (st.add_assistant_message resp.content (some resp.tool_calls) clock)
                  (clock + 1)).clock
              rw [chatGo_cons_eq env resp rest its (some 25) st clock hl hne]
              simp only
              omega

theorem chatGo_calls_none (env : AgentEnv) (script : List ProviderResponse) :
    ∀ its st clock, (∀ r ∈ script, r.tool_calls ≠ []) →
      (chatGo env script its none st clock).calls = script.length := by
  induction script with
  | nil => intro its st clock _; rfl
  | cons resp rest ih =>
      intro its st clock h
      have hne : resp.tool_calls ≠ [] := h resp (by simp)
      have hne' : resp.tool_calls.isEmpty = false := by
        cases hc : resp.tool_calls with
        | nil => exact absurd hc hne
        | cons a l => rfl
      have hih := ih (its + 1)
        (execCalls env resp.tool_calls
          (st.add_assistant_message resp.content (some resp.tool_calls) clock)
          (clock + 1)).state
        (execCalls env resp.tool_calls
          (st.add_assistant_message resp.content (some resp.tool_calls) clock)
          (clock + 1)).clock
        (fun r hr => h r (by simp [hr]))
      rw [chatGo_cons_eq env resp rest its none st clock rfl hne']
      simp only [List.length_cons]
      omega

theorem countIterLimit_chatGo_one (env : AgentEnv)
    (henv : env.mode = Mode.act) (script : List ProviderResponse) :
    ∀ its st clock, its < 20 → 19 - its ≤ script.length →
      (∀ r ∈ script.take (19 - its), r.tool_calls ≠ []) →
      countIterLimit (chatGo env script its (some 25) st clock).events = 1 ∧
      Event.iterationLimitEv 20 ∈ (chatGo env script its (some 25) st clock).events := by
  induction script with
  | nil =>
      intro its st clock h20 hlen _
      have h19 : its = 19 := by simp at hlen; omega
      subst h19
      rw [chatGo_nil_run env 19 (some 25) st clock rfl,
        if_pos ⟨henv, rfl⟩]
      constructor
      · rfl
      · simp
  | cons resp rest ih =>
      intro its st clock h20 hlen htake
      have hlc : loopCond (some 25) its = true := by
        simp [loopCond]; omega
      by_cases h19 : its = 19
      · subst h19
        cases hne : resp.tool_calls.isEmpty with
        | true =>
            rw [chatGo_cons_notools env resp rest 19 (some 25) st clock hlc hne,
              if_pos ⟨henv, rfl⟩]
            constructor
            · rw [countIterLimit_append, countIterLimit_content]
              rfl
            · simp
        | false =>
            have hrec := countIterLimit_chatGo_ge20 env rest 20 (some 25)
              (execCalls env resp.tool_calls
                (st.add_assistant_message resp.content (some resp.tool_calls) clock)
                (clock + 1)).state
              (execCalls env resp.tool_calls
                (st.add_assistant_message resp.content (some resp.tool_calls) clock)
                (clock + 1)).clock (by omega)
            have hex := countIterLimit_execCalls env resp.tool_calls
              (st.add_assistant_message resp.content (some resp.tool_calls) clock)
              (clock + 1)
            rw [chatGo_cons_eq env resp rest 19 (some 25) st clock hlc hne,
              if_pos ⟨henv, rfl⟩]
            constructor
            · simp only [countIterLimit_append, countIterLimit_content, hrec, hex]
              rfl
            · simp
      · have h119 : its + 1 ≠ 20 := by omega
        have htk : 19 - its = (19 - (its + 1)) + 1 := by omega
        have hrespmem : resp ∈ List.take (19 - its) (resp :: rest) := by
          rw [htk]
          exact List.mem_cons_self resp _
        have hmem : ∀ r : ProviderResponse,
            r ∈ List.take (19 - (its + 1)) rest →
            r ∈ List.take (19 - its) (resp :: rest) := by
          intro r hr
          rw [htk]
          exact List.mem_cons_of_mem resp hr
        have hne : resp.tool_calls ≠ [] := htake resp hrespmem
        have hne' : resp.tool_calls.isEmpty = false := by
          cases hc : resp.tool_calls with
          | nil => exact absurd hc hne
          | cons a l => rfl
        have hih := ih (its + 1)
          (execCalls env resp.tool_calls
            (st.add_assistant_message resp.content (some resp.tool_calls) clock)
            (clock + 1)).state
          (execCalls env resp.tool_calls
            (st.add_assistant_message resp.content (some resp.tool_calls) clock)
            (clock + 1)).clock
          (by omega)
          (by simp at hlen ⊢; omega)
          (fun r hr => htake r (hmem r hr))
        have hex := countIterLimit_execCalls env resp.tool_calls
          (st.add_assistant_message resp.content (some resp.tool_calls) clock)
          (clock + 1)
        rw [chatGo_cons_eq env resp rest its (some 25) st clock hlc hne']
        have hwneg : ¬(env.mode = Mode.act ∧ its + 1 = 20) := by
          rintro ⟨_, hx⟩; omega
        constructor
        · simp only [countIterLimit_append, countIterLimit_warn,
            countIterLimit_content, hih.1, hex]
          rw [if_neg hwneg]
        · simp only [List.mem_append]
          exact Or.inr (Or.inr (Or.inr hih.2))

/-! ## Claim C8 -/

/-- C8: the turn loop of Agent.chat is unbounded in plan mode — with a
scripted model that keeps requesting tool calls it consumes the whole
script, however long (calls equals the script length, with no cap); in
act mode it performs at most 25 iterations, hence at most 25 model
calls per turn; and in act mode, when the model keeps requesting tool
calls for the first 19 responses, the turn emits exactly one
iteration-limit ("continuing?") signal, carrying count 20 at iteration
20. -/
theorem c8_iteration_caps :
    (∀ (env : AgentEnv) (st0 : ConversationState) (msg : String)
       (script : List ProviderResponse), env.mode = Mode.act →
      (chat env st0 msg script).calls ≤ 25) ∧
    (∀ (env : AgentEnv) (st0 : ConversationState) (msg : String)
       (script : List ProviderResponse), env.mode = Mode.plan →
      (∀ r ∈ script, r.tool_calls ≠ []) →
      (chat env st0 msg script).calls = script.length) ∧
    (∀ (env : AgentEnv) (st0 : ConversationState) (msg : String)
       (script : List ProviderResponse), env.mode = Mode.act →
      19 ≤ script.length →
      (∀ r ∈ script.take 19, r.tool_calls ≠ []) →
      countIterLimit (chat env st0 msg script).events = 1 ∧
      Event.iterationLimitEv 20 ∈ (chat env st0 msg script).events) := by
  refine ⟨?_, ?_, ?_⟩
  · intro env st0 msg script henv
    simp only [chat, henv]
    simpa using chatGo_calls_le env script 0 _ _
  · intro env st0 msg script henv h
    simp only [chat, henv]
    exact chatGo_calls_none env script 0 _ _ h
  · intro env st0 msg script henv hlen htake
    simp only [chat, henv]
    exact countIterLimit_chatGo_one env henv script 0 _ _ (by omega)
      (by simpa using hlen) (by simpa using htake)

/-- Witness for C8: an act-mode turn over a 20-response tool-call script
stays within the 25-call cap and emits exactly one iteration-limit
signal with count 20; a plan-mode turn over a 30-response tool-call
script consumes all 30 responses, beyond the act-mode cap. -/
theorem c8_iteration_caps_witness :
    (chat c8WitnessEnv emptyActState "go" c8WitnessScript).calls ≤ 25 ∧
    countIterLimit (chat c8WitnessEnv emptyActState "go" c8WitnessScript).events = 1 ∧
    Event.iterationLimitEv 20 ∈
      (chat c8WitnessEnv emptyActState "go" c8WitnessScript).events ∧
    (chat c8PlanEnv emptyActState "go" c8PlanScript).calls = 30 := by
  refine ⟨?_, ?_, ?_, ?_⟩
  · exact c8_iteration_caps.1 c8WitnessEnv emptyActState "go" c8WitnessScript rfl
  · exact (c8_iteration_caps.2.2 c8WitnessEnv emptyActState "go" c8WitnessScript
      rfl (by decide) (by decide)).1
  · exact (c8_iteration_caps.2.2 c8WitnessEnv emptyActState "go" c8WitnessScript
      rfl (by decide) (by decide)).2
  · exact (c8_iteration_caps.2.1 c8PlanEnv emptyActState "go" c8PlanScript
      rfl (by decide)).trans (by decide)

end Lizcode
